/-
Verification of the task-tracker core (models.py, storage.py, services.py).

Shallow embedding conventions:
- Python `datetime` values are modelled as `Nat` ticks; `datetime.isoformat`
  is modelled by an injective decimal rendering (`isoformat`) and
  `datetime.fromisoformat` by its partial inverse (`_parse_datetime`),
  which fails (ValueError) on non-decimal strings.  The source relies only
  on isoformat/fromisoformat being an exact round trip.
- Python exceptions are modelled by the `PyErr` type; the spec's error
  kinds map to it as: ValidationError = `PyErr.valueError` (the code raises
  `ValueError`), NotFoundError = `PyErr.taskNotFoundError`, StorageError =
  `PyErr.storageError` (tagged with which of the source's messages it
  carries).
- The storage file is modelled by `FileContent`: absent, blank (exists but
  whitespace only), unreadable (read_text raises OSError), malformed
  (read succeeds, json.loads raises JSONDecodeError), or parsed JSON.
  JSON values are `JValue`; JSON numbers are modelled as integers.
- Stateful repository/service operations are functions
  `FileContent → MResult α`; an `MResult.err e s` is a raised exception
  with the file left in state `s` (exceptions do not roll back writes,
  though no code path here writes before raising).
- Typing restrictions of the model (outside every verified claim): the
  decoder rejects records whose `id` field is neither an integer nor null,
  or whose `title`/`description`/`created_at`/`updated_at` fields are
  non-strings, with a TypeError, where CPython would store the ill-typed
  value unchecked; `add`'s max-of-ids is modelled to raise TypeError on
  non-integer ids (CPython raises TypeError at `1 + max(...)` for these,
  except for bools/floats, which no claim involves).
- File writes are modelled as always succeeding (the source translates a
  write-time OSError into StorageError, a path no claim exercises).
-/
import Mathlib

namespace TaskTracker

/-- Which StorageError message the source attached (storage.py). -/
inductive StorageMsg where
  | failedRead
  | unexpectedData
  | doesNotExist (id : Int)
  | failedWrite
deriving DecidableEq, Repr

/-- Python exceptions raised by the embedded code. -/
inductive PyErr where
  | valueError
  | keyError (key : String)
  | typeError
  | attributeError
  | storageError (msg : StorageMsg)
  | taskNotFoundError
deriving DecidableEq, Repr

/-- models.py: `class TaskStatus(str, Enum)`. -/
inductive TaskStatus where
  | todo
  | in_progress
  | done
deriving DecidableEq, Repr

/-- Python `str.strip()`: drop leading and trailing whitespace. -/
def pyStrip (s : String) : String :=
  String.mk (((s.data.dropWhile Char.isWhitespace).reverse.dropWhile
    Char.isWhitespace).reverse)

/-- The `.value` string of a TaskStatus member. -/
def TaskStatus.value : TaskStatus → String
  | .todo => "todo"
  | .in_progress => "in_progress"
  | .done => "done"

/-- The `TaskStatus(s)` enum constructor on strings; `none` models the
ValueError raised for an unknown value. -/
def TaskStatus.ofValue? : String → Option TaskStatus
  | "todo" => some .todo
  | "in_progress" => some .in_progress
  | "done" => some .done
  | _ => none

/-- models.py: `@dataclass(slots=True) class Task`.  Timestamps are Nat
ticks; `id` is `Optional[int]`. -/
structure Task where
  title : String
  description : String
  status : TaskStatus
  created_at : Nat
  updated_at : Nat
  id : Option Int
deriving DecidableEq, Repr

/-- models.py `Task.update_status`: rejects leaving `done`, otherwise sets
the status and refreshes `updated_at` to `now` (the `datetime.utcnow()`
call).  Returned as a pure `Except` (the mutation is the returned task). -/
def Task.update_status (t : Task) (new_status : TaskStatus) (now : Nat) :
    Except PyErr Task :=
  if t.status = .done ∧ new_status ≠ .done then
    .error .valueError
  else
    .ok { t with status := new_status, updated_at := now }

/-- JSON values as produced by `json.loads` (numbers modelled as Int). -/
inductive JValue where
  | jnull
  | jbool (b : Bool)
  | jint (n : Int)
  | jstr (s : String)
  | jarr (elems : List JValue)
  | jobj (fields : List (String × JValue))

/-- Python `row.get(k)`: `none` when the key is missing; raises
AttributeError when `row` is not a dict. -/
def JValue.getField : JValue → String → Except PyErr (Option JValue)
  | .jobj fields, k => .ok ((fields.lookup k))
  | _, _ => .error .attributeError

/-- Python `row[k]`: raises KeyError when the key is missing and TypeError
when `row` is not a dict. -/
def JValue.getItem : JValue → String → Except PyErr JValue
  | .jobj fields, k =>
    match fields.lookup k with
    | some v => .ok v
    | none => .error (.keyError k)
  | _, _ => .error .typeError

/-- Decimal digits of `n`, least significant first, with explicit fuel so
the definition is structurally recursive (fuel `n` suffices). -/
def natDigitsRev : Nat → Nat → List Nat
  | 0, _ => []
  | _ + 1, 0 => []
  | fuel + 1, n + 1 => ((n + 1) % 10) :: natDigitsRev fuel ((n + 1) / 10)

/-- Model of `datetime.isoformat`: the decimal rendering of the tick
count (injective, exactly invertible — all the source relies on). -/
def isoformat (n : Nat) : String :=
  if n = 0 then "0"
  else String.mk (((natDigitsRev n n).map (fun d => Char.ofNat (48 + d))).reverse)

/-- The digit value of a decimal character, `none` otherwise. -/
def charToDigit? (c : Char) : Option Nat :=
  if 48 ≤ c.toNat ∧ c.toNat ≤ 57 then some (c.toNat - 48) else none

/-- Digit values of a character list; `none` if any is not a digit. -/
def digitsOfChars? : List Char → Option (List Nat)
  | [] => some []
  | c :: cs =>
    match charToDigit? c, digitsOfChars? cs with
    | some d, some ds => some (d :: ds)
    | _, _ => none

/-- storage.py `_parse_datetime` (`datetime.fromisoformat`): succeeds
exactly on nonempty all-digit strings, else raises ValueError. -/
def _parse_datetime (s : String) : Except PyErr Nat :=
  match digitsOfChars? s.data with
  | some (d :: ds) => .ok (ds.foldl (fun acc d => 10 * acc + d) d)
  | _ => .error .valueError

/-- Decode the `id` field (`raw.get("id")`) into `Optional[int]`. -/
def decodeOptId : Option JValue → Except PyErr (Option Int)
  | none => .ok none
  | some .jnull => .ok none
  | some (.jint n) => .ok (some n)
  | some _ => .error .typeError

/-- Require a JSON string (typed `str` fields of Task). -/
def asStr : JValue → Except PyErr String
  | .jstr s => .ok s
  | _ => .error .typeError

/-- The `TaskStatus(x)` call on the decoded status value: ValueError on
an unknown string or a non-string. -/
def statusFromValue : JValue → Except PyErr TaskStatus
  | .jstr sv =>
    match TaskStatus.ofValue? sv with
    | some st => .ok st
    | none => .error .valueError
  | _ => .error .valueError

/-- storage.py `_task_from_dict`.  Field decoding follows the Python
argument evaluation order of the `Task(...)` call: id, title,
description, status, created_at, updated_at. -/
def _task_from_dict (raw : JValue) : Except PyErr Task := do
  let idv ← raw.getField "id"
  let id ← decodeOptId idv
  let title ← asStr (← raw.getItem "title")
  let descv ← raw.getField "description"
  let description ← asStr (descv.getD (.jstr ""))
  let status ← statusFromValue ((← raw.getField "status").getD (.jstr "todo"))
  let created_at ← _parse_datetime (← asStr (← raw.getItem "created_at"))
  let updated_at ← _parse_datetime (← asStr (← raw.getItem "updated_at"))
  pure { title := title, description := description, status := status,
         created_at := created_at, updated_at := updated_at, id := id }

/-- storage.py `_task_to_dict`: `asdict` (dataclass field order) with the
timestamps rendered by isoformat and the status by its value string. -/
def _task_to_dict (t : Task) : JValue :=
  .jobj [("title", .jstr t.title),
         ("description", .jstr t.description),
         ("status", .jstr t.status.value),
         ("created_at", .jstr (isoformat t.created_at)),
         ("updated_at", .jstr (isoformat t.updated_at)),
         ("id", match t.id with | some n => .jint n | none => .jnull)]

/-- The observable states of the storage file. -/
inductive FileContent where
  | absent
  | blank
  | unreadable
  | malformed
  | parsed (j : JValue)

/-- Outcome of a stateful operation: a value or a raised exception, in
both cases with the resulting file state. -/
inductive MResult (α : Type) where
  | ok (a : α) (s : FileContent)
  | err (e : PyErr) (s : FileContent)

/-- A stateful repository/service operation. -/
abbrev M (α : Type) := FileContent → MResult α

/-- Lift a pure fallible computation (no file access) into `M`. -/
def liftE (e : Except PyErr α) : M α := fun s =>
  match e with
  | .ok a => .ok a s
  | .error ex => .err ex s

namespace JsonFileTaskRepository

/-- storage.py `_read_raw`: `[]` for an absent or blank file; StorageError
for an unreadable file (OSError caught), malformed JSON (JSONDecodeError
caught) or a non-array top-level value; else the raw row list. -/
def _read_raw : FileContent → Except PyErr (List JValue)
  | .absent => .ok []
  | .blank => .ok []
  | .unreadable => .error (.storageError .failedRead)
  | .malformed => .error (.storageError .failedRead)
  | .parsed (.jarr rows) => .ok rows
  | .parsed _ => .error (.storageError .unexpectedData)

/-- storage.py `_write_raw`: serialize the rows and replace the file
(write-time OSError not modelled; see the header note). -/
def _write_raw (rows : List JValue) : FileContent :=
  .parsed (.jarr rows)

/-- The comparison `row.get("id") == task_id` (an int on the right):
true exactly when the row's id field holds that integer. -/
def rowMatches (row : JValue) (task_id : Int) : Except PyErr Bool := do
  let idv ← row.getField "id"
  pure (match idv with
        | some (.jint n) => n == task_id
        | _ => false)

/-- The list comprehension of `list_tasks`: decode every row in order,
propagating the first decoding exception. -/
def decode_rows : List JValue → Except PyErr (List Task)
  | [] => .ok []
  | row :: rest => do
    let t ← _task_from_dict row
    let ts ← decode_rows rest
    pure (t :: ts)

/-- storage.py `list_tasks`. -/
def list_tasks : M (List Task) := fun s =>
  liftE (do decode_rows (← _read_raw s)) s

/-- The scanning loop of `get_by_id`: first matching row decoded, `none`
when no row matches. -/
def get_scan (task_id : Int) : List JValue → Except PyErr (Option Task)
  | [] => .ok none
  | row :: rest => do
    if (← rowMatches row task_id) then
      some <$> _task_from_dict row
    else
      get_scan task_id rest

/-- storage.py `get_by_id`. -/
def get_by_id (task_id : Int) : M (Option Task) := fun s =>
  liftE (do get_scan task_id (← _read_raw s)) s

/-- The generator `row.get("id", 0) for row in rows` feeding `max`,
requiring integer ids (see the header note on the model's typing). -/
def idsForMax : List JValue → Except PyErr (List Int)
  | [] => .ok []
  | row :: rest => do
    let idv ← row.getField "id"
    match idv.getD (.jint 0) with
    | .jint n => (fun l => n :: l) <$> idsForMax rest
    | _ => .error .typeError

/-- Python `max(xs, default=0)`: the default applies only to an empty
list (a maximum of negative ids stays negative). -/
def pyMaxD : List Int → Int
  | [] => 0
  | x :: rest => rest.foldl max x

/-- storage.py `add`: assigns `1 + max(row.get("id", 0), default=0)` as
the id (mutating only the task's id field), appends the encoded task and
rewrites the file. -/
def add (task : Task) : M Task := fun s =>
  match (do
      let rows ← _read_raw s
      let ids ← idsForMax rows
      pure (rows, ids) : Except PyErr (List JValue × List Int)) with
  | .error e => .err e s
  | .ok (rows, ids) =>
    let t := { task with id := some (1 + pyMaxD ids) }
    .ok t (_write_raw (rows ++ [_task_to_dict t]))

/-- The rewriting loop of `update`: every matching row replaced by the
encoded task, all other rows kept in place; the flag records whether any
row matched. -/
def update_scan (task_id : Int) (enc : JValue) :
    List JValue → Except PyErr (List JValue × Bool)
  | [] => .ok ([], false)
  | row :: rest => do
    let m ← rowMatches row task_id
    let (tl, found) ← update_scan task_id enc rest
    if m then pure (enc :: tl, true) else pure (row :: tl, found)

/-- storage.py `update`: ValueError on a missing id; StorageError
(does-not-exist) when no row matches, before any write; else rewrites the
file with the matching row(s) replaced in place and returns the task. -/
def update (task : Task) : M Task := fun s =>
  match task.id with
  | none => .err .valueError s
  | some tid =>
    match (do update_scan tid (_task_to_dict task) (← _read_raw s)) with
    | .error e => .err e s
    | .ok (updated, found) =>
      if found then .ok task (_write_raw updated)
      else .err (.storageError (.doesNotExist tid)) s

/-- The filtering comprehension of `delete`: rows whose id does not
match. -/
def delete_scan (task_id : Int) : List JValue → Except PyErr (List JValue)
  | [] => .ok []
  | row :: rest => do
    let m ← rowMatches row task_id
    let tl ← delete_scan task_id rest
    pure (if m then tl else row :: tl)

/-- storage.py `delete`: StorageError (does-not-exist) when nothing was
removed, else rewrites the file without the matching rows. -/
def delete (task_id : Int) : M Unit := fun s =>
  match (do
      let rows ← _read_raw s
      let new_rows ← delete_scan task_id rows
      pure (rows, new_rows) : Except PyErr (List JValue × List JValue)) with
  | .error e => .err e s
  | .ok (rows, new_rows) =>
    if new_rows.length == rows.length then
      .err (.storageError (.doesNotExist task_id)) s
    else
      .ok () (_write_raw new_rows)

end JsonFileTaskRepository

namespace TaskService

/-- services.py `list_tasks`: all tasks, or only those with the given
status, in repository order. -/
def list_tasks (status : Option TaskStatus) : M (List Task) := fun s =>
  match JsonFileTaskRepository.list_tasks s with
  | .ok tasks s1 =>
    (match status with
     | some st => .ok (tasks.filter (fun t => t.status == st)) s1
     | none => .ok tasks s1)
  | .err e s1 => .err e s1

/-- services.py `create_task`: ValueError on a blank title, else builds a
Task with trimmed fields and status `todo` and delegates to `add`.
`now_c` and `now_u` are the two `datetime.utcnow()` default-factory calls
(created_at first, updated_at second). -/
def create_task (title description : String) (now_c now_u : Nat) : M Task :=
  fun s =>
    if pyStrip title = "" then .err .valueError s
    else
      JsonFileTaskRepository.add
        { title := pyStrip title, description := pyStrip description,
          status := .todo, created_at := now_c, updated_at := now_u,
          id := none } s

/-- services.py `_require_task`: TaskNotFoundError when `get_by_id`
returns no task. -/
def _require_task (task_id : Int) : M Task := fun s =>
  match JsonFileTaskRepository.get_by_id task_id s with
  | .ok (some t) s1 => .ok t s1
  | .ok none s1 => .err .taskNotFoundError s1
  | .err e s1 => .err e s1

/-- services.py `change_status`: load the task, apply
`Task.update_status` (utcnow = `now`), persist via `update`. -/
def change_status (task_id : Int) (new_status : TaskStatus) (now : Nat) :
    M Task := fun s =>
  match _require_task task_id s with
  | .err e s1 => .err e s1
  | .ok task s1 =>
    match task.update_status new_status now with
    | .error e => .err e s1
    | .ok t2 => JsonFileTaskRepository.update t2 s1

/-- services.py `update_details`: load the task, replace only the
provided fields (trimmed) via `dataclasses.replace`, persist via
`update`.  Timestamps are not touched. -/
def update_details (task_id : Int)
    (title description : Option String) : M Task := fun s =>
  match _require_task task_id s with
  | .err e s1 => .err e s1
  | .ok task s1 =>
    let new_title :=
      match title with | none => task.title | some t => pyStrip t
    let new_description :=
      match description with | none => task.description | some d => pyStrip d
    JsonFileTaskRepository.update
      { task with title := new_title, description := new_description } s1

/-- services.py `delete_task`: delegate to `delete`, re-raising any
StorageError as TaskNotFoundError. -/
def delete_task (task_id : Int) : M Unit := fun s =>
  match JsonFileTaskRepository.delete task_id s with
  | .err (.storageError _) s1 => .err .taskNotFoundError s1
  | r => r

end TaskService


/-- Folding the digit list back with base 10 recovers the number. -/
theorem natDigitsRev_foldr (fuel n : Nat) (h : n ≤ fuel) :
    (natDigitsRev fuel n).foldr (fun d acc => 10 * acc + d) 0 = n := by
  induction fuel generalizing n with
  | zero =>
    interval_cases n
    rfl
  | succ fuel ih =>
    cases n with
    | zero => rfl
    | succ m =>
      have hdiv : (m + 1) / 10 ≤ fuel := by
        have := Nat.div_lt_self (Nat.succ_pos m) (by norm_num : 1 < 10)
        omega
      simp only [natDigitsRev, List.foldr_cons, ih _ hdiv]
      omega

/-- Every entry of the digit list is a decimal digit. -/
theorem natDigitsRev_lt (fuel n : Nat) : ∀ d ∈ natDigitsRev fuel n, d < 10 := by
  induction fuel generalizing n with
  | zero => simp [natDigitsRev]
  | succ fuel ih =>
    cases n with
    | zero => simp [natDigitsRev]
    | succ m =>
      intro d hd
      simp only [natDigitsRev, List.mem_cons] at hd
      rcases hd with h | h
      · omega
      · exact ih _ d h

/-- Decoding the character of a decimal digit gives the digit back. -/
theorem charToDigit?_enc (d : Nat) (h : d < 10) :
    charToDigit? (Char.ofNat (48 + d)) = some d := by
  interval_cases d <;> rfl

/-- Decoding an all-digit character list recovers the digit list. -/
theorem digitsOfChars?_enc (l : List Nat) (h : ∀ d ∈ l, d < 10) :
    digitsOfChars? (l.map (fun d => Char.ofNat (48 + d))) = some l := by
  induction l with
  | nil => rfl
  | cons d ds ih =>
    have hd : d < 10 := h d (List.mem_cons_self d ds)
    have hds : ∀ x ∈ ds, x < 10 := fun x hx => h x (List.mem_cons_of_mem d hx)
    simp only [List.map_cons, digitsOfChars?, charToDigit?_enc d hd, ih hds]

/-- The timestamp encoding round-trips exactly. -/
theorem parse_isoformat (n : Nat) : _parse_datetime (isoformat n) = .ok n := by
  by_cases h0 : n = 0
  · subst h0
    rfl
  · have hne : natDigitsRev n n ≠ [] := by
      cases n with
      | zero => exact absurd rfl h0
      | succ m => simp [natDigitsRev]
    unfold isoformat
    rw [if_neg h0]
    unfold _parse_datetime
    have hdata :
        (String.mk (((natDigitsRev n n).map
            (fun d => Char.ofNat (48 + d))).reverse)).data
          = ((natDigitsRev n n).reverse.map (fun d => Char.ofNat (48 + d))) := by
      simp [List.map_reverse]
    rw [hdata, digitsOfChars?_enc _ (by
      intro d hd
      exact natDigitsRev_lt n n d (List.mem_reverse.mp hd))]
    rcases hrev : (natDigitsRev n n).reverse with _ | ⟨d, ds⟩
    · exact absurd (by simpa using congrArg List.reverse hrev) hne
    · have hfold :
          ds.foldl (fun acc d => 10 * acc + d) d
            = (natDigitsRev n n).foldr (fun d acc => 10 * acc + d) 0 := by
        have h1 : (d :: ds).foldl (fun acc d => 10 * acc + d) 0
            = ds.foldl (fun acc d => 10 * acc + d) d := by
          simp
        rw [← h1, ← hrev, List.foldl_reverse]
      simp only [hfold, natDigitsRev_foldr n n (Nat.le_refl n)]

/-- The status value string round-trips through the enum constructor. -/
theorem ofValue?_value (st : TaskStatus) :
    TaskStatus.ofValue? st.value = some st := by
  cases st <;> rfl

/-- Decoding an encoded task recovers it field for field. -/
theorem from_dict_to_dict (t : Task) :
    _task_from_dict (_task_to_dict t) = .ok t := by
  obtain ⟨title, description, status, created_at, updated_at, id⟩ := t
  simp only [_task_to_dict, _task_from_dict, JValue.getField, JValue.getItem,
    List.lookup, bind, Except.bind, asStr, decodeOptId]
  cases id <;>
    simp [List.lookup, asStr, parse_isoformat, statusFromValue, ofValue?_value,
      pure, Except.pure]


/-! Helper lemmas about error propagation from `_read_raw`. -/

theorem list_tasks_read_error (s : FileContent) (e : PyErr)
    (h : JsonFileTaskRepository._read_raw s = .error e) :
    JsonFileTaskRepository.list_tasks s = .err e s := by
  simp [JsonFileTaskRepository.list_tasks, h, liftE, bind, Except.bind]

theorem get_by_id_read_error (s : FileContent) (e : PyErr) (tid : Int)
    (h : JsonFileTaskRepository._read_raw s = .error e) :
    JsonFileTaskRepository.get_by_id tid s = .err e s := by
  simp [JsonFileTaskRepository.get_by_id, h, liftE, bind, Except.bind]

theorem add_read_error (s : FileContent) (e : PyErr) (task : Task)
    (h : JsonFileTaskRepository._read_raw s = .error e) :
    JsonFileTaskRepository.add task s = .err e s := by
  simp [JsonFileTaskRepository.add, h, bind, Except.bind]

theorem update_read_error (s : FileContent) (e : PyErr) (task : Task)
    (tid : Int) (hid : task.id = some tid)
    (h : JsonFileTaskRepository._read_raw s = .error e) :
    JsonFileTaskRepository.update task s = .err e s := by
  simp [JsonFileTaskRepository.update, hid, h, bind, Except.bind]

theorem delete_read_error (s : FileContent) (e : PyErr) (tid : Int)
    (h : JsonFileTaskRepository._read_raw s = .error e) :
    JsonFileTaskRepository.delete tid s = .err e s := by
  simp [JsonFileTaskRepository.delete, h, bind, Except.bind]

theorem read_raw_parsed_nonarray (j : JValue) (h : ∀ rows, j ≠ .jarr rows) :
    JsonFileTaskRepository._read_raw (.parsed j)
      = .error (.storageError .unexpectedData) := by
  cases j with
  | jarr rows => exact absurd rfl (h rows)
  | _ => rfl

/-! Characterizations of successful repository operations. -/

/-- A successful `update` returns exactly its argument. -/
theorem update_ok_value (task v : Task) (s s' : FileContent)
    (h : JsonFileTaskRepository.update task s = .ok v s') : v = task := by
  unfold JsonFileTaskRepository.update at h
  rcases htid : task.id with _ | tid <;> rw [htid] at h
  · simp at h
  · rcases hread : JsonFileTaskRepository._read_raw s with e | rows <;>
      simp only [hread, bind, Except.bind] at h
    · simp at h
    · rcases hscan : JsonFileTaskRepository.update_scan tid
          (_task_to_dict task) rows with e | p <;>
        simp only [hscan] at h
      · simp at h
      · obtain ⟨updated, found⟩ := p
        cases found with
        | false => simp at h
        | true =>
          simp only [if_true] at h
          injection h with h1 h2
          exact h1.symm

/-- A successful `add` returns its argument with only the id replaced. -/
theorem add_ok_value (task v : Task) (s s' : FileContent)
    (h : JsonFileTaskRepository.add task s = .ok v s') :
    ∃ nid, v = { task with id := some nid } := by
  unfold JsonFileTaskRepository.add at h
  rcases hread : JsonFileTaskRepository._read_raw s with e | rows <;>
    simp only [hread, bind, Except.bind] at h
  · simp at h
  · rcases hids : JsonFileTaskRepository.idsForMax rows with e | ids <;>
      simp only [hids, bind, Except.bind, pure, Except.pure] at h
    · simp at h
    · refine ⟨1 + JsonFileTaskRepository.pyMaxD ids, ?_⟩
      injection h with h1 h2
      exact h1.symm

/-- Loading an existing task through the service succeeds. -/
theorem require_task_of_get (tid : Int) (fc : FileContent) (t0 : Task)
    (hget : JsonFileTaskRepository.get_by_id tid fc = .ok (some t0) fc) :
    TaskService._require_task tid fc = .ok t0 fc := by
  unfold TaskService._require_task
  rw [hget]

/-- change_status on a stored done task, asked to leave done, raises
ValueError with the file untouched. -/
theorem change_status_done_err (fc : FileContent) (tid : Int) (t : Task)
    (ns : TaskStatus) (now : Nat)
    (hget : JsonFileTaskRepository.get_by_id tid fc = .ok (some t) fc)
    (hdone : t.status = .done) (hnot : ns ≠ .done) :
    TaskService.change_status tid ns now fc = .err .valueError fc := by
  unfold TaskService.change_status TaskService._require_task
  rw [hget]
  simp [Task.update_status, hdone, hnot]

/-- change_status on a legal transition delegates to `update` with the
status replaced and updated_at refreshed. -/
theorem change_status_eq (fc : FileContent) (tid : Int) (t0 : Task)
    (ns : TaskStatus) (now : Nat)
    (hget : JsonFileTaskRepository.get_by_id tid fc = .ok (some t0) fc)
    (hok : ¬(t0.status = .done ∧ ns ≠ .done)) :
    TaskService.change_status tid ns now fc
      = JsonFileTaskRepository.update
          { t0 with status := ns, updated_at := now } fc := by
  unfold TaskService.change_status TaskService._require_task
  rw [hget]
  simp [Task.update_status, hok]

/-- update_details delegates to `update` with only the provided fields
replaced (trimmed) and everything else — timestamps included —
unchanged. -/
theorem update_details_eq (fc : FileContent) (tid : Int) (t0 : Task)
    (title description : Option String)
    (hget : JsonFileTaskRepository.get_by_id tid fc = .ok (some t0) fc) :
    TaskService.update_details tid title description fc
      = JsonFileTaskRepository.update
          { t0 with
            title := match title with
              | none => t0.title
              | some x => pyStrip x,
            description := match description with
              | none => t0.description
              | some x => pyStrip x } fc := by
  unfold TaskService.update_details TaskService._require_task
  rw [hget]

/-! Concrete fixtures shared by several claims. -/

def sampleDoneTask : Task :=
  ⟨"t", "", .done, 0, 1, some 1⟩

def sampleDoneFile : FileContent :=
  .parsed (.jarr [_task_to_dict sampleDoneTask])

def detailTask : Task := ⟨"a", "b", .todo, 0, 5, some 1⟩

def detailFile : FileContent := .parsed (.jarr [_task_to_dict detailTask])

def missingTitleRow : JValue :=
  .jobj [("id", .jint 1), ("created_at", .jstr "0"), ("updated_at", .jstr "0")]

def missingTitleFile : FileContent := .parsed (.jarr [missingTitleRow])

/-! C1 -/

/-- C1: for a stored task whose status is done, change_status to todo or
in_progress fails with ValueError (the ValidationError kind) and leaves
the stored file state unchanged (hence that task's status and updated_at
as well). -/
theorem C1_terminal_state_locked (fc : FileContent) (task_id : Int)
    (t : Task) (new_status : TaskStatus) (now : Nat)
    (hget : JsonFileTaskRepository.get_by_id task_id fc = .ok (some t) fc)
    (hdone : t.status = .done) (hnot : new_status ≠ .done) :
    TaskService.change_status task_id new_status now fc
      = .err .valueError fc :=
  change_status_done_err fc task_id t new_status now hget hdone hnot

/-- C1 witness: concrete done task, attempted move back to todo. -/
theorem C1_terminal_state_locked_witness :
    TaskService.change_status 1 .todo 5 sampleDoneFile
      = .err .valueError sampleDoneFile :=
  C1_terminal_state_locked sampleDoneFile 1 sampleDoneTask .todo 5 rfl rfl
    (fun h => TaskStatus.noConfusion h)

/-! C2 -/

/-- C2 counterexample: a record missing the required `title` field makes
`list_tasks` raise KeyError, which is not the StorageError kind — the
decode of rows happens outside `_read_raw`'s try/except. -/
theorem C2_counterexample :
    JsonFileTaskRepository.list_tasks missingTitleFile
      = .err (.keyError "title") missingTitleFile
    ∧ ∀ m : StorageMsg, PyErr.keyError "title" ≠ .storageError m :=
  ⟨rfl, fun _ h => PyErr.noConfusion h⟩

/-- C2 (amended): malformed JSON (or an unreadable file) and a
well-formed non-array top level fail with the StorageError kind on every
repository read path (list, getById, and the read phase of
add/update/delete), with the file state unchanged; but an array record
missing a required field raises a KeyError — a different exception — on
the paths that decode it (list, and getById on the matching record). -/
theorem C2_amended :
    (∀ fc, fc = FileContent.malformed ∨ fc = FileContent.unreadable →
      ∀ tid tid2 task, task.id = some tid2 →
        JsonFileTaskRepository.list_tasks fc
            = .err (.storageError .failedRead) fc
        ∧ JsonFileTaskRepository.get_by_id tid fc
            = .err (.storageError .failedRead) fc
        ∧ JsonFileTaskRepository.add task fc
            = .err (.storageError .failedRead) fc
        ∧ JsonFileTaskRepository.update task fc
            = .err (.storageError .failedRead) fc
        ∧ JsonFileTaskRepository.delete tid fc
            = .err (.storageError .failedRead) fc)
    ∧ (∀ j, (∀ rows, j ≠ JValue.jarr rows) →
      ∀ tid tid2 task, task.id = some tid2 →
        JsonFileTaskRepository.list_tasks (.parsed j)
            = .err (.storageError .unexpectedData) (.parsed j)
        ∧ JsonFileTaskRepository.get_by_id tid (.parsed j)
            = .err (.storageError .unexpectedData) (.parsed j)
        ∧ JsonFileTaskRepository.add task (.parsed j)
            = .err (.storageError .unexpectedData) (.parsed j)
        ∧ JsonFileTaskRepository.update task (.parsed j)
            = .err (.storageError .unexpectedData) (.parsed j)
        ∧ JsonFileTaskRepository.delete tid (.parsed j)
            = .err (.storageError .unexpectedData) (.parsed j))
    ∧ JsonFileTaskRepository.list_tasks missingTitleFile
        = .err (.keyError "title") missingTitleFile
    ∧ JsonFileTaskRepository.get_by_id 1 missingTitleFile
        = .err (.keyError "title") missingTitleFile := by
  refine ⟨?_, ?_, rfl, rfl⟩
  · rintro fc (rfl | rfl) tid tid2 task hid <;>
      exact ⟨list_tasks_read_error _ _ rfl, get_by_id_read_error _ _ _ rfl,
        add_read_error _ _ _ rfl, update_read_error _ _ _ _ hid rfl,
        delete_read_error _ _ _ rfl⟩
  · intro j hj tid tid2 task hid
    have h := read_raw_parsed_nonarray j hj
    exact ⟨list_tasks_read_error _ _ h, get_by_id_read_error _ _ _ h,
      add_read_error _ _ _ h, update_read_error _ _ _ _ hid h,
      delete_read_error _ _ _ h⟩

/-- C2 witness: the amended theorem applied to a malformed file and to a
concrete non-array (string) top level. -/
theorem C2_amended_witness :
    JsonFileTaskRepository.list_tasks .malformed
        = .err (.storageError .failedRead) .malformed
    ∧ JsonFileTaskRepository.list_tasks (.parsed (.jstr "not a json array"))
        = .err (.storageError .unexpectedData)
            (.parsed (.jstr "not a json array")) :=
  ⟨(C2_amended.1 .malformed (Or.inl rfl) 1 1 sampleDoneTask rfl).1,
   (C2_amended.2.1 (.jstr "not a json array")
      (fun _ h => JValue.noConfusion h) 1 1 sampleDoneTask rfl).1⟩

/-! C3 -/

def detailTask2 : Task := ⟨"x", "b", .todo, 0, 5, some 1⟩

/-- C3 counterexample: a successful title-only update_details persists
the task with `updated_at` unchanged (still 5 = the old value), though
the claim requires every successful mutation to refresh `updated_at`. -/
theorem C3_counterexample :
    TaskService.update_details 1 (some "x") none detailFile
      = .ok detailTask2 (.parsed (.jarr [_task_to_dict detailTask2]))
    ∧ detailTask2.updated_at = detailTask.updated_at := ⟨rfl, rfl⟩

/-- C3 (amended): `updated_at ≥ created_at` holds for created tasks and
is preserved by the mutations under a monotone clock: create_task stamps
created_at/updated_at with its two utcnow readings, change_status
refreshes updated_at to its utcnow reading and keeps created_at, but a
title/description-only update_details persists the task with both
timestamps unchanged — it does not refresh updated_at. -/
theorem C3_amended :
    (∀ title description now_c now_u fc t fc',
      TaskService.create_task title description now_c now_u fc
          = .ok t fc' →
      t.created_at = now_c ∧ t.updated_at = now_u
        ∧ (now_c ≤ now_u → t.created_at ≤ t.updated_at))
    ∧ (∀ tid ns now fc t0 t fc',
      JsonFileTaskRepository.get_by_id tid fc = .ok (some t0) fc →
      TaskService.change_status tid ns now fc = .ok t fc' →
      t = { t0 with status := ns, updated_at := now }
        ∧ (t0.created_at ≤ now → t.created_at ≤ t.updated_at))
    ∧ (∀ tid title description fc t0 t fc',
      JsonFileTaskRepository.get_by_id tid fc = .ok (some t0) fc →
      TaskService.update_details tid title description fc = .ok t fc' →
      t.updated_at = t0.updated_at ∧ t.created_at = t0.created_at
        ∧ (t0.created_at ≤ t0.updated_at → t.created_at ≤ t.updated_at)) := by
  refine ⟨?_, ?_, ?_⟩
  · intro title description now_c now_u fc t fc' h
    unfold TaskService.create_task at h
    by_cases hb : pyStrip title = ""
    · rw [if_pos hb] at h
      exact absurd h (by simp)
    · rw [if_neg hb] at h
      obtain ⟨nid, rfl⟩ := add_ok_value _ _ _ _ h
      exact ⟨rfl, rfl, fun hle => hle⟩
  · intro tid ns now fc t0 t fc' hget h
    by_cases hc : t0.status = .done ∧ ns ≠ .done
    · rw [change_status_done_err fc tid t0 ns now hget hc.1 hc.2] at h
      simp at h
    · rw [change_status_eq fc tid t0 ns now hget hc] at h
      have := update_ok_value _ _ _ _ h
      subst this
      exact ⟨rfl, fun hle => hle⟩
  · intro tid title description fc t0 t fc' hget h
    rw [update_details_eq fc tid t0 title description hget] at h
    have := update_ok_value _ _ _ _ h
    subst this
    exact ⟨rfl, rfl, fun hle => hle⟩

/-- C3 witness: the amended theorem applied to the concrete title-only
edit of the stored task (timestamps 0 and 5, both preserved). -/
theorem C3_amended_witness :
    detailTask2.updated_at = detailTask.updated_at
    ∧ detailTask2.created_at = detailTask.created_at
    ∧ (detailTask.created_at ≤ detailTask.updated_at →
        detailTask2.created_at ≤ detailTask2.updated_at) :=
  C3_amended.2.2 1 (some "x") none detailFile detailTask detailTask2
    (.parsed (.jarr [_task_to_dict detailTask2])) rfl rfl

/-! C4 -/

def emptiedTask : Task := ⟨"", "b", .todo, 0, 5, some 1⟩

/-- C4 counterexample: update_details with a whitespace-only title
persists the task with an empty title — an operation can make a stored
title empty. -/
theorem C4_counterexample :
    TaskService.update_details 1 (some "   ") none detailFile
      = .ok emptiedTask (.parsed (.jarr [_task_to_dict emptiedTask]))
    ∧ emptiedTask.title = "" := ⟨rfl, rfl⟩

def detailTaskB : Task := ⟨"keep", "", .in_progress, 2, 3, some 7⟩

def detailFileB : FileContent := .parsed (.jarr [_task_to_dict detailTaskB])

/-- C4 (amended): create_task rejects empty and whitespace-only titles
with ValueError (the ValidationError kind) and otherwise stores the
trimmed, non-empty title; but update_details performs no title
validation, so it can persist an empty title. -/
theorem C4_amended :
    (∀ title description now_c now_u fc, pyStrip title = "" →
      TaskService.create_task title description now_c now_u fc
        = .err .valueError fc)
    ∧ (∀ title description now_c now_u fc t fc', pyStrip title ≠ "" →
      TaskService.create_task title description now_c now_u fc
          = .ok t fc' →
      t.title = pyStrip title ∧ t.title ≠ "")
    ∧ TaskService.update_details 7 (some " ") none detailFileB
        = .ok ⟨"", "", .in_progress, 2, 3, some 7⟩
            (.parsed (.jarr
              [_task_to_dict ⟨"", "", .in_progress, 2, 3, some 7⟩])) := by
  refine ⟨?_, ?_, rfl⟩
  · intro title description now_c now_u fc hb
    unfold TaskService.create_task
    rw [if_pos hb]
  · intro title description now_c now_u fc t fc' hb h
    unfold TaskService.create_task at h
    rw [if_neg hb] at h
    obtain ⟨nid, rfl⟩ := add_ok_value _ _ _ _ h
    exact ⟨rfl, hb⟩

/-- C4 witness: the amended theorem applied to a whitespace-only and a
non-blank concrete title. -/
theorem C4_amended_witness :
    TaskService.create_task "   " "x" 0 0 .absent = .err .valueError .absent
    ∧ ((⟨"ok", "x", .todo, 0, 0, some 1⟩ : Task).title = pyStrip "ok"
        ∧ (⟨"ok", "x", .todo, 0, 0, some 1⟩ : Task).title ≠ "") :=
  ⟨C4_amended.1 "   " "x" 0 0 .absent rfl,
   C4_amended.2.1 "ok" "x" 0 0 .absent ⟨"ok", "x", .todo, 0, 0, some 1⟩
     (.parsed (.jarr [_task_to_dict ⟨"ok", "x", .todo, 0, 0, some 1⟩]))
     (by decide) rfl⟩

/-! C5 -/

def freshTask : Task := ⟨"n", "d", .todo, 3, 4, none⟩

/-- C5 counterexample: add assigns the id but leaves both timestamps
exactly as the task was constructed (3 and 4) — it does not mutate the
timestamps before persisting, contrary to the claim. -/
theorem C5_counterexample :
    JsonFileTaskRepository.add freshTask .absent
      = .ok ⟨"n", "d", .todo, 3, 4, some 1⟩
          (.parsed (.jarr [_task_to_dict ⟨"n", "d", .todo, 3, 4, some 1⟩]))
    ∧ (⟨"n", "d", .todo, 3, 4, some 1⟩ : Task).created_at
        = freshTask.created_at
    ∧ (⟨"n", "d", .todo, 3, 4, some 1⟩ : Task).updated_at
        = freshTask.updated_at := ⟨rfl, rfl, rfl⟩

/-- C5 (amended): add mutates only the input task's id field (assigning
the computed next id), persists the encoded task appended to the existing
rows, and returns the task with its assigned id; all fields other than id
— including both timestamps — are unchanged. -/
theorem C5_amended (task : Task) (s : FileContent) (rows : List JValue)
    (ids : List Int)
    (hread : JsonFileTaskRepository._read_raw s = .ok rows)
    (hids : JsonFileTaskRepository.idsForMax rows = .ok ids) :
    JsonFileTaskRepository.add task s
      = .ok { task with id := some (1 + JsonFileTaskRepository.pyMaxD ids) }
          (JsonFileTaskRepository._write_raw (rows ++
            [_task_to_dict
              { task with
                id := some (1 + JsonFileTaskRepository.pyMaxD ids) }])) := by
  unfold JsonFileTaskRepository.add
  simp [hread, hids, bind, Except.bind, pure, Except.pure]

/-- C5 witness: the amended theorem applied to a concrete task and an
absent file. -/
theorem C5_amended_witness :
    JsonFileTaskRepository.add ⟨"w", "", .todo, 1, 2, none⟩ .absent
      = .ok ⟨"w", "", .todo, 1, 2, some 1⟩
          (JsonFileTaskRepository._write_raw
            [_task_to_dict ⟨"w", "", .todo, 1, 2, some 1⟩]) :=
  C5_amended ⟨"w", "", .todo, 1, 2, none⟩ .absent [] [] rfl rfl


/-! C8 -/

/-- C8: encoding each task of a collection to its dictionary form and
decoding it back yields an equal collection, field for field (including
status and the tick-exact timestamps), both at the codec level and
through a full write/list cycle. -/
theorem C8_round_trip (ts : List Task) :
    JsonFileTaskRepository.decode_rows (ts.map _task_to_dict) = .ok ts
    ∧ JsonFileTaskRepository.list_tasks
        (JsonFileTaskRepository._write_raw (ts.map _task_to_dict))
      = .ok ts (JsonFileTaskRepository._write_raw (ts.map _task_to_dict)) := by
  have hdec : JsonFileTaskRepository.decode_rows (ts.map _task_to_dict)
      = .ok ts := by
    induction ts with
    | nil => rfl
    | cons t rest ih =>
      simp only [List.map_cons, JsonFileTaskRepository.decode_rows,
        from_dict_to_dict, ih, bind, Except.bind, pure, Except.pure]
  refine ⟨hdec, ?_⟩
  simp only [JsonFileTaskRepository.list_tasks,
    JsonFileTaskRepository._write_raw, JsonFileTaskRepository._read_raw,
    bind, Except.bind, hdec, liftE]

/-! C10 -/

/-- C10: delete_task turns every StorageError raised by the repository's
delete — including read/decode failures on a corrupt storage file, not
only the missing-id case — into TaskNotFoundError, and therefore never
reports a StorageError itself. -/
theorem C10_delete_converts_storage_errors :
    (∀ tid fc m s1, JsonFileTaskRepository.delete tid fc
        = .err (.storageError m) s1 →
      TaskService.delete_task tid fc = .err .taskNotFoundError s1)
    ∧ (∀ tid fc m s1,
        TaskService.delete_task tid fc ≠ .err (.storageError m) s1)
    ∧ TaskService.delete_task 1 .malformed
        = .err .taskNotFoundError .malformed
    ∧ TaskService.delete_task 1 (.parsed (.jstr "not a json array"))
        = .err .taskNotFoundError (.parsed (.jstr "not a json array")) := by
  refine ⟨?_, ?_, rfl, rfl⟩
  · intro tid fc m s1 h
    unfold TaskService.delete_task
    rw [h]
  · intro tid fc m s1
    unfold TaskService.delete_task
    rcases hd : JsonFileTaskRepository.delete tid fc with ⟨a, s2⟩ | ⟨e, s2⟩
    · simp
    · cases e <;> simp

/-- C10 witness: the first conjunct applied to an unreadable file. -/
theorem C10_delete_converts_storage_errors_witness :
    TaskService.delete_task 2 .unreadable
      = .err .taskNotFoundError .unreadable :=
  C10_delete_converts_storage_errors.1 2 .unreadable .failedRead .unreadable
    (delete_read_error .unreadable (.storageError .failedRead) 2 rfl)

/-! Scan characterizations used by C9, C7 and C6. -/

/-- A JSON value that is an object (a decoded dict). -/
def isObj : JValue → Bool
  | .jobj _ => true
  | _ => false

/-- The boolean value of `row.get("id") == task_id` for an object row. -/
def rowIdIs (row : JValue) (task_id : Int) : Bool :=
  match row with
  | .jobj fields =>
    match fields.lookup "id" with
    | some (.jint n) => n == task_id
    | _ => false
  | _ => false

theorem rowMatches_obj (row : JValue) (tid : Int) (h : isObj row = true) :
    JsonFileTaskRepository.rowMatches row tid = .ok (rowIdIs row tid) := by
  cases row <;> first | rfl | simp [isObj] at h

/-- Rows none of which match are mapped to themselves. -/
theorem map_if_not_match (tid : Int) (enc : JValue) (l : List JValue)
    (h : ∀ r ∈ l, rowIdIs r tid = false) :
    l.map (fun r => if rowIdIs r tid then enc else r) = l := by
  induction l with
  | nil => rfl
  | cons a t ih =>
    rw [List.map_cons, h a (List.mem_cons_self a t)]
    simp only [Bool.false_eq_true, if_false]
    rw [ih (fun r hr => h r (List.mem_cons_of_mem a hr))]

theorem update_scan_obj (tid : Int) (enc : JValue) (rows : List JValue)
    (h : ∀ row ∈ rows, isObj row = true) :
    JsonFileTaskRepository.update_scan tid enc rows
      = .ok (rows.map (fun r => if rowIdIs r tid then enc else r),
             rows.any (fun r => rowIdIs r tid)) := by
  induction rows with
  | nil => rfl
  | cons row rest ih =>
    have hrow : isObj row = true := h row (List.mem_cons_self row rest)
    have hrest : ∀ r ∈ rest, isObj r = true :=
      fun r hr => h r (List.mem_cons_of_mem row hr)
    simp only [JsonFileTaskRepository.update_scan,
      rowMatches_obj row tid hrow, ih hrest, bind, Except.bind]
    cases hm : rowIdIs row tid <;>
      simp [pure, Except.pure, List.any_cons, hm]

/-! C9 -/

/-- C9: `update` needs a present id (ValueError otherwise, before any
read); with an id it rewrites exactly the matching record in place,
preserving the positions, order and contents of all other records; and
when no record matches it fails with the does-not-exist StorageError
leaving the file unchanged. -/
theorem C9_update_contract :
    (∀ task fc, task.id = none →
      JsonFileTaskRepository.update task fc = .err .valueError fc)
    ∧ (∀ (task : Task) tid rows, task.id = some tid →
        (∀ row ∈ rows, isObj row = true) →
        (∀ row ∈ rows, rowIdIs row tid = false) →
        JsonFileTaskRepository.update task (.parsed (.jarr rows))
          = .err (.storageError (.doesNotExist tid)) (.parsed (.jarr rows)))
    ∧ (∀ (task : Task) tid pre row post, task.id = some tid →
        (∀ r ∈ pre ++ row :: post, isObj r = true) →
        rowIdIs row tid = true →
        (∀ r ∈ pre, rowIdIs r tid = false) →
        (∀ r ∈ post, rowIdIs r tid = false) →
        JsonFileTaskRepository.update task (.parsed (.jarr (pre ++ row :: post)))
          = .ok task (JsonFileTaskRepository._write_raw
              (pre ++ _task_to_dict task :: post))) := by
  refine ⟨?_, ?_, ?_⟩
  · intro task fc hid
    unfold JsonFileTaskRepository.update
    rw [hid]
  · intro task tid rows hid hobj hnone
    unfold JsonFileTaskRepository.update
    rw [hid]
    have hscan := update_scan_obj tid (_task_to_dict task) rows hobj
    have hany : rows.any (fun r => rowIdIs r tid) = false := by
      simp only [List.any_eq_false]
      intro r hr
      simp [hnone r hr]
    rw [hany] at hscan
    simp [JsonFileTaskRepository._read_raw, bind, Except.bind, hscan]
  · intro task tid pre row post hid hobj hrow hpre hpost
    unfold JsonFileTaskRepository.update
    rw [hid]
    have hscan := update_scan_obj tid (_task_to_dict task)
      (pre ++ row :: post) hobj
    have hmap : (pre ++ row :: post).map
        (fun r => if rowIdIs r tid then _task_to_dict task else r)
          = pre ++ _task_to_dict task :: post := by
      rw [List.map_append, List.map_cons,
        map_if_not_match tid (_task_to_dict task) pre hpre,
        map_if_not_match tid (_task_to_dict task) post hpost, hrow]
      simp
    have hany : (pre ++ row :: post).any (fun r => rowIdIs r tid) = true := by
      simp only [List.any_eq_true]
      exact ⟨row, List.mem_append_right pre (List.mem_cons_self row post), hrow⟩
    rw [hmap, hany] at hscan
    simp only [JsonFileTaskRepository._read_raw, bind, Except.bind, hscan]
    rfl

/-- C9 witness: all three conjuncts at concrete inputs — a task without
an id, a store where no record matches, and a store where exactly the
middle record matches. -/
theorem C9_update_contract_witness :
    JsonFileTaskRepository.update ⟨"a", "", .todo, 0, 0, none⟩ .blank
      = .err .valueError .blank
    ∧ JsonFileTaskRepository.update ⟨"a", "", .todo, 0, 0, some 9⟩
        (.parsed (.jarr [_task_to_dict detailTask]))
      = .err (.storageError (.doesNotExist 9))
          (.parsed (.jarr [_task_to_dict detailTask]))
    ∧ JsonFileTaskRepository.update ⟨"a", "", .todo, 0, 0, some 1⟩
        (.parsed (.jarr [_task_to_dict detailTaskB, _task_to_dict detailTask]))
      = .ok ⟨"a", "", .todo, 0, 0, some 1⟩
          (JsonFileTaskRepository._write_raw
            [_task_to_dict detailTaskB,
             _task_to_dict ⟨"a", "", .todo, 0, 0, some 1⟩]) := by
  refine ⟨C9_update_contract.1 ⟨"a", "", .todo, 0, 0, none⟩ .blank rfl,
    C9_update_contract.2.1 ⟨"a", "", .todo, 0, 0, some 9⟩ 9
      [_task_to_dict detailTask] rfl (by decide) (by decide), ?_⟩
  have := C9_update_contract.2.2 ⟨"a", "", .todo, 0, 0, some 1⟩ 1
    [_task_to_dict detailTaskB] (_task_to_dict detailTask) [] rfl
    (by decide) (by decide) (by decide) (by decide)
  simpa using this


/-! Error-kind classification: nothing in the decoding pipeline ever
produces a StorageError, and `_read_raw` never produces the
does-not-exist StorageError.  Used to show the service cannot leak the
repository's raw "does not exist" signal. -/

/-- An exception that is not of the StorageError kind. -/
def notStorage (e : PyErr) : Prop := ∀ m, e ≠ .storageError m

theorem getField_notStorage (raw : JValue) (k : String) (e : PyErr)
    (h : raw.getField k = .error e) : notStorage e := by
  intro m hm
  subst hm
  cases raw <;> simp [JValue.getField] at h

theorem getItem_notStorage (raw : JValue) (k : String) (e : PyErr)
    (h : raw.getItem k = .error e) : notStorage e := by
  intro m hm
  subst hm
  cases raw <;> simp [JValue.getItem] at h
  case jobj fields =>
    rcases hl : fields.lookup k with _ | v <;> rw [hl] at h <;> simp at h

theorem decodeOptId_notStorage (idv : Option JValue) (e : PyErr)
    (h : decodeOptId idv = .error e) : notStorage e := by
  intro m hm
  subst hm
  rcases idv with _ | v
  · simp [decodeOptId] at h
  · cases v <;> simp [decodeOptId] at h

theorem asStr_notStorage (v : JValue) (e : PyErr)
    (h : asStr v = .error e) : notStorage e := by
  intro m hm
  subst hm
  cases v <;> simp [asStr] at h

theorem statusFromValue_notStorage (v : JValue) (e : PyErr)
    (h : statusFromValue v = .error e) : notStorage e := by
  intro m hm
  subst hm
  cases v <;> simp [statusFromValue] at h
  case jstr sv =>
    rcases hs : TaskStatus.ofValue? sv with _ | st <;> rw [hs] at h <;>
      simp at h

theorem parse_datetime_notStorage (s : String) (e : PyErr)
    (h : _parse_datetime s = .error e) : notStorage e := by
  intro m hm
  subst hm
  unfold _parse_datetime at h
  rcases hd : digitsOfChars? s.data with _ | ds <;> rw [hd] at h
  · simp at h
  · cases ds <;> simp at h

theorem from_dict_notStorage (raw : JValue) (e : PyErr)
    (h : _task_from_dict raw = .error e) : notStorage e := by
  unfold _task_from_dict at h
  rcases h1 : raw.getField "id" with e1 | idv <;>
    simp only [h1, bind, Except.bind] at h
  · cases h
    exact getField_notStorage raw "id" _ h1
  rcases h2 : decodeOptId idv with e2 | id <;> simp only [h2] at h
  · cases h
    exact decodeOptId_notStorage idv _ h2
  rcases h3 : raw.getItem "title" with e3 | titlev <;> simp only [h3] at h
  · cases h
    exact getItem_notStorage raw "title" _ h3
  rcases h4 : asStr titlev with e4 | title <;> simp only [h4] at h
  · cases h
    exact asStr_notStorage titlev _ h4
  rcases h5 : raw.getField "description" with e5 | descv <;>
    simp only [h5] at h
  · cases h
    exact getField_notStorage raw "description" _ h5
  rcases h6 : asStr (descv.getD (.jstr "")) with e6 | de <;>
    simp only [h6] at h
  · cases h
    exact asStr_notStorage _ _ h6
  rcases h7 : raw.getField "status" with e7 | stv <;> simp only [h7] at h
  · cases h
    exact getField_notStorage raw "status" _ h7
  rcases h8 : statusFromValue (stv.getD (.jstr "todo")) with e8 | st <;>
    simp only [h8] at h
  · cases h
    exact statusFromValue_notStorage _ _ h8
  rcases h9 : raw.getItem "created_at" with e9 | cav <;> simp only [h9] at h
  · cases h
    exact getItem_notStorage raw "created_at" _ h9
  rcases h10 : asStr cav with e10 | cas <;> simp only [h10] at h
  · cases h
    exact asStr_notStorage cav _ h10
  rcases h11 : _parse_datetime cas with e11 | ca <;> simp only [h11] at h
  · cases h
    exact parse_datetime_notStorage cas _ h11
  rcases h12 : raw.getItem "updated_at" with e12 | uav <;> simp only [h12] at h
  · cases h
    exact getItem_notStorage raw "updated_at" _ h12
  rcases h13 : asStr uav with e13 | uas <;> simp only [h13] at h
  · cases h
    exact asStr_notStorage uav _ h13
  rcases h14 : _parse_datetime uas with e14 | ua <;> simp only [h14] at h
  · cases h
    exact parse_datetime_notStorage uas _ h14
  simp [pure, Except.pure] at h

theorem rowMatches_err_attr (row : JValue) (tid : Int) (e : PyErr)
    (h : JsonFileTaskRepository.rowMatches row tid = .error e) :
    e = .attributeError := by
  cases row <;>
    simp [JsonFileTaskRepository.rowMatches, JValue.getField, bind,
      Except.bind, pure, Except.pure] at h <;>
    exact h.symm

theorem get_scan_notStorage (tid : Int) (rows : List JValue) (e : PyErr)
    (h : JsonFileTaskRepository.get_scan tid rows = .error e) :
    notStorage e := by
  induction rows with
  | nil => simp [JsonFileTaskRepository.get_scan] at h
  | cons row rest ih =>
    unfold JsonFileTaskRepository.get_scan at h
    rcases h1 : JsonFileTaskRepository.rowMatches row tid with e1 | b <;>
      simp only [h1, bind, Except.bind] at h
    · cases h
      intro m hm
      subst hm
      cases rowMatches_err_attr row tid _ h1
    · cases b with
      | true =>
        simp only [if_true] at h
        rcases h2 : _task_from_dict row with e2 | t <;>
          simp only [h2, Functor.map, Except.map] at h
        · cases h
          exact from_dict_notStorage row _ h2
        · simp at h
      | false =>
        simp only [Bool.false_eq_true, if_false] at h
        exact ih h

theorem read_raw_not_dne (fc : FileContent) (i : Int) :
    JsonFileTaskRepository._read_raw fc
      ≠ .error (.storageError (.doesNotExist i)) := by
  cases fc with
  | parsed j => cases j <;> simp [JsonFileTaskRepository._read_raw]
  | absent => simp [JsonFileTaskRepository._read_raw]
  | blank => simp [JsonFileTaskRepository._read_raw]
  | unreadable => simp [JsonFileTaskRepository._read_raw]
  | malformed => simp [JsonFileTaskRepository._read_raw]

/-- Inversion of a successful `get_by_id`. -/
theorem get_by_id_inv (tid : Int) (fc : FileContent) (r : Option Task)
    (s1 : FileContent)
    (h : JsonFileTaskRepository.get_by_id tid fc = .ok r s1) :
    s1 = fc ∧ ∃ rows, JsonFileTaskRepository._read_raw fc = .ok rows
      ∧ JsonFileTaskRepository.get_scan tid rows = .ok r := by
  unfold JsonFileTaskRepository.get_by_id liftE at h
  rcases h1 : JsonFileTaskRepository._read_raw fc with e1 | rows <;>
    simp only [h1, bind, Except.bind] at h
  · simp at h
  · rcases h2 : JsonFileTaskRepository.get_scan tid rows with e2 | o <;>
      simp only [h2] at h
    · simp at h
    · injection h with ho hs
      exact ⟨hs.symm, rows, rfl, by rw [h2, ho]⟩

/-- A `get_by_id` exception is never the does-not-exist StorageError. -/
theorem get_by_id_err_not_dne (tid : Int) (fc : FileContent) (e : PyErr)
    (s1 : FileContent) (i : Int)
    (h : JsonFileTaskRepository.get_by_id tid fc = .err e s1) :
    e ≠ .storageError (.doesNotExist i) := by
  unfold JsonFileTaskRepository.get_by_id liftE at h
  rcases h1 : JsonFileTaskRepository._read_raw fc with e1 | rows <;>
    simp only [h1, bind, Except.bind] at h
  · injection h with he hs
    subst he
    intro hc
    rw [hc] at h1
    exact absurd h1 (read_raw_not_dne fc i)
  · rcases h2 : JsonFileTaskRepository.get_scan tid rows with e2 | o <;>
      simp only [h2] at h
    · injection h with he hs
      subst he
      exact get_scan_notStorage tid rows e2 h2 _
    · simp at h

/-- A matching row is an object whose id field holds exactly the id. -/
theorem rowMatches_true_inv (row : JValue) (tid : Int)
    (h : JsonFileTaskRepository.rowMatches row tid = .ok true) :
    ∃ fields, row = .jobj fields
      ∧ fields.lookup "id" = some (.jint tid) := by
  cases row <;>
    simp [JsonFileTaskRepository.rowMatches, JValue.getField, bind,
      Except.bind, pure, Except.pure] at h
  case jobj fields =>
    refine ⟨fields, rfl, ?_⟩
    rcases hl : fields.lookup "id" with _ | v <;> rw [hl] at h
    · simp at h
    · cases v <;> simp at h
      case jint n =>
        rw [h]

/-- Decoding an object row whose id field is `jint tid` yields a task
with that id. -/
theorem from_dict_id (fields : List (String × JValue)) (tid : Int)
    (t : Task) (hl : fields.lookup "id" = some (.jint tid))
    (h : _task_from_dict (.jobj fields) = .ok t) : t.id = some tid := by
  unfold _task_from_dict at h
  simp only [JValue.getField, hl, bind, Except.bind, decodeOptId] at h
  rcases h3 : (JValue.jobj fields).getItem "title" with e3 | titlev <;>
    simp only [h3] at h
  · simp at h
  rcases h4 : asStr titlev with e4 | title <;> simp only [h4] at h
  · simp at h
  rcases h6 : asStr ((fields.lookup "description").getD (.jstr ""))
      with e6 | de <;> simp only [h6] at h
  · simp at h
  rcases h8 : statusFromValue ((fields.lookup "status").getD (.jstr "todo"))
      with e8 | st <;> simp only [h8] at h
  · simp at h
  rcases h9 : (JValue.jobj fields).getItem "created_at" with e9 | cav <;>
    simp only [h9] at h
  · simp at h
  rcases h10 : asStr cav with e10 | cas <;> simp only [h10] at h
  · simp at h
  rcases h11 : _parse_datetime cas with e11 | ca <;> simp only [h11] at h
  · simp at h
  rcases h12 : (JValue.jobj fields).getItem "updated_at" with e12 | uav <;>
    simp only [h12] at h
  · simp at h
  rcases h13 : asStr uav with e13 | uas <;> simp only [h13] at h
  · simp at h
  rcases h14 : _parse_datetime uas with e14 | ua <;> simp only [h14] at h
  · simp at h
  simp only [pure, Except.pure] at h
  injection h with ht
  rw [← ht]

/-- The task found by `get_scan` carries the searched id. -/
theorem get_scan_some_id (tid : Int) (rows : List JValue) (t : Task)
    (h : JsonFileTaskRepository.get_scan tid rows = .ok (some t)) :
    t.id = some tid := by
  induction rows with
  | nil => simp [JsonFileTaskRepository.get_scan] at h
  | cons row rest ih =>
    unfold JsonFileTaskRepository.get_scan at h
    rcases h1 : JsonFileTaskRepository.rowMatches row tid with e1 | b <;>
      simp only [h1, bind, Except.bind] at h
    · simp at h
    · cases b with
      | false =>
        simp only [Bool.false_eq_true, if_false] at h
        exact ih h
      | true =>
        simp only [if_true] at h
        rcases h2 : _task_from_dict row with e2 | t2 <;>
          simp only [h2, Functor.map, Except.map] at h
        · simp at h
        · injection h with ho
          injection ho with ht
          obtain ⟨fields, rfl, hl⟩ := rowMatches_true_inv row tid h1
          rw [← ht]
          exact from_dict_id fields tid t2 hl h2

/-- An `update_scan` exception is always the AttributeError of a
non-object row. -/
theorem update_scan_err_attr (tid : Int) (enc : JValue)
    (rows : List JValue) (e : PyErr)
    (h : JsonFileTaskRepository.update_scan tid enc rows = .error e) :
    e = .attributeError := by
  induction rows with
  | nil => simp [JsonFileTaskRepository.update_scan] at h
  | cons row rest ih =>
    unfold JsonFileTaskRepository.update_scan at h
    rcases h1 : JsonFileTaskRepository.rowMatches row tid with e1 | b <;>
      simp only [h1, bind, Except.bind] at h
    · cases h
      exact rowMatches_err_attr row tid _ h1
    · rcases h2 : JsonFileTaskRepository.update_scan tid enc rest
          with e2 | p <;> simp only [h2] at h
      · cases h
        exact ih h2
      · obtain ⟨tl, f⟩ := p
        cases b <;> simp [pure, Except.pure] at h

/-- If the scan found the task, the rewrite loop reports a match. -/
theorem update_scan_found (tid : Int) (enc : JValue) :
    ∀ (rows : List JValue) (t : Task) (l : List JValue) (b : Bool),
      JsonFileTaskRepository.get_scan tid rows = .ok (some t) →
      JsonFileTaskRepository.update_scan tid enc rows = .ok (l, b) →
      b = true := by
  intro rows
  induction rows with
  | nil =>
    intro t l b hg h
    simp [JsonFileTaskRepository.get_scan] at hg
  | cons row rest ih =>
    intro t l b hg h
    unfold JsonFileTaskRepository.get_scan at hg
    unfold JsonFileTaskRepository.update_scan at h
    rcases h1 : JsonFileTaskRepository.rowMatches row tid with e1 | m <;>
      simp only [h1, bind, Except.bind] at hg h
    · simp at hg
    · rcases h2 : JsonFileTaskRepository.update_scan tid enc rest
          with e2 | p <;> simp only [h2] at h
      · simp at h
      · obtain ⟨tl, f⟩ := p
        cases m with
        | true =>
          simp only [if_true, pure, Except.pure] at h
          injection h with hp
          rw [← (Prod.mk.injEq _ _ _ _).mp hp |>.2]
        | false =>
          simp only [Bool.false_eq_true, if_false, pure, Except.pure] at h
          injection h with hp
          have hb := (Prod.mk.injEq _ _ _ _).mp hp |>.2
          rw [← hb]
          exact ih t tl f (by simpa using hg) h2

/-- If the scan found nothing, the delete loop removes nothing. -/
theorem get_scan_none_delete (tid : Int) (rows : List JValue)
    (hg : JsonFileTaskRepository.get_scan tid rows = .ok none) :
    JsonFileTaskRepository.delete_scan tid rows = .ok rows := by
  induction rows with
  | nil => rfl
  | cons row rest ih =>
    unfold JsonFileTaskRepository.get_scan at hg
    unfold JsonFileTaskRepository.delete_scan
    rcases h1 : JsonFileTaskRepository.rowMatches row tid with e1 | m <;>
      simp only [h1, bind, Except.bind] at hg ⊢
    · simp at hg
    · cases m with
      | true =>
        rcases h2 : _task_from_dict row with e2 | t <;>
          simp [h2, Functor.map, Except.map, if_true] at hg
      | false =>
        simp only [Bool.false_eq_true, if_false] at hg
        rw [ih hg]
        simp [pure, Except.pure]

/-- `update` on a state whose scan finds the task never raises the
does-not-exist StorageError. -/
theorem update_no_dne (t2 : Task) (fc : FileContent) (tid : Int)
    (rows : List JValue) (t : Task) (i : Int) (s : FileContent)
    (hid : t2.id = some tid)
    (hread : JsonFileTaskRepository._read_raw fc = .ok rows)
    (hscan : JsonFileTaskRepository.get_scan tid rows = .ok (some t)) :
    JsonFileTaskRepository.update t2 fc
      ≠ .err (.storageError (.doesNotExist i)) s := by
  unfold JsonFileTaskRepository.update
  rw [hid]
  rcases h2 : JsonFileTaskRepository.update_scan tid (_task_to_dict t2) rows
      with e2 | p <;> simp only [hread, bind, Except.bind, h2]
  · intro hc
    injection hc with he hs
    rw [update_scan_err_attr tid (_task_to_dict t2) rows e2 h2] at he
    cases he
  · obtain ⟨l, b⟩ := p
    rw [update_scan_found tid (_task_to_dict t2) rows t l b hscan h2]
    simp

/-- delete_task never surfaces any StorageError. -/
theorem delete_task_never_storage (tid : Int) (fc : FileContent)
    (m : StorageMsg) (s : FileContent) :
    TaskService.delete_task tid fc ≠ .err (.storageError m) s := by
  unfold TaskService.delete_task
  rcases hd : JsonFileTaskRepository.delete tid fc with ⟨a, s2⟩ | ⟨e, s2⟩
  · simp
  · cases e <;> simp


/-! C7 -/

/-- C7: the service gives one uniform not-found signal.  First conjunct:
when `get_by_id` finds no task, change_status, update_details and
delete_task all raise TaskNotFoundError with the file unchanged.  Second
conjunct: none of the three can ever surface the repository's raw
does-not-exist StorageError to the caller, on any file state. -/
theorem C7_uniform_not_found :
    (∀ tid fc s1,
      JsonFileTaskRepository.get_by_id tid fc = .ok none s1 →
      s1 = fc
      ∧ (∀ ns now, TaskService.change_status tid ns now fc
          = .err .taskNotFoundError fc)
      ∧ (∀ ti de, TaskService.update_details tid ti de fc
          = .err .taskNotFoundError fc)
      ∧ TaskService.delete_task tid fc = .err .taskNotFoundError fc)
    ∧ (∀ tid fc i s,
      (∀ ns now, TaskService.change_status tid ns now fc
          ≠ .err (.storageError (.doesNotExist i)) s)
      ∧ (∀ ti de, TaskService.update_details tid ti de fc
          ≠ .err (.storageError (.doesNotExist i)) s)
      ∧ TaskService.delete_task tid fc
          ≠ .err (.storageError (.doesNotExist i)) s) := by
  constructor
  · intro tid fc s1 hget
    obtain ⟨hs, rows, hread, hscan⟩ := get_by_id_inv tid fc none s1 hget
    subst hs
    refine ⟨rfl, ?_, ?_, ?_⟩
    · intro ns now
      unfold TaskService.change_status TaskService._require_task
      rw [hget]
    · intro ti de
      unfold TaskService.update_details TaskService._require_task
      rw [hget]
    · unfold TaskService.delete_task JsonFileTaskRepository.delete
      simp only [hread, get_scan_none_delete tid rows hscan, bind,
        Except.bind, pure, Except.pure, beq_self_eq_true, if_true]
  · intro tid fc i s
    refine ⟨?_, ?_, delete_task_never_storage tid fc (.doesNotExist i) s⟩
    · intro ns now
      rcases hg : JsonFileTaskRepository.get_by_id tid fc
          with ⟨o, s1⟩ | ⟨e, s1⟩
      · rcases o with _ | t0
        · obtain ⟨hs, _⟩ := get_by_id_inv tid fc none s1 hg
          subst s1
          unfold TaskService.change_status TaskService._require_task
          rw [hg]
          simp
        · obtain ⟨hs, rows, hread, hscan⟩ := get_by_id_inv tid fc (some t0) s1 hg
          subst s1
          have hid0 : t0.id = some tid := get_scan_some_id tid rows t0 hscan
          by_cases hc : t0.status = .done ∧ ns ≠ .done
          · rw [change_status_done_err fc tid t0 ns now hg hc.1 hc.2]
            simp
          · rw [change_status_eq fc tid t0 ns now hg hc]
            exact update_no_dne { t0 with status := ns, updated_at := now }
              fc tid rows t0 i s hid0 hread hscan
      · unfold TaskService.change_status TaskService._require_task
        rw [hg]
        intro hcon
        injection hcon with he hs
        exact absurd he (get_by_id_err_not_dne tid fc e s1 i hg)
    · intro ti de
      rcases hg : JsonFileTaskRepository.get_by_id tid fc
          with ⟨o, s1⟩ | ⟨e, s1⟩
      · rcases o with _ | t0
        · obtain ⟨hs, _⟩ := get_by_id_inv tid fc none s1 hg
          subst s1
          unfold TaskService.update_details TaskService._require_task
          rw [hg]
          simp
        · obtain ⟨hs, rows, hread, hscan⟩ := get_by_id_inv tid fc (some t0) s1 hg
          subst s1
          have hid0 : t0.id = some tid := get_scan_some_id tid rows t0 hscan
          rw [update_details_eq fc tid t0 ti de hg]
          exact update_no_dne _ fc tid rows t0 i s hid0 hread hscan
      · unfold TaskService.update_details TaskService._require_task
        rw [hg]
        intro hcon
        injection hcon with he hs
        exact absurd he (get_by_id_err_not_dne tid fc e s1 i hg)

/-- C7 witness: the first conjunct applied to an empty store. -/
theorem C7_uniform_not_found_witness :
    TaskService.change_status 5 .done 0 (.parsed (.jarr []))
        = .err .taskNotFoundError (.parsed (.jarr []))
    ∧ TaskService.update_details 5 none none (.parsed (.jarr []))
        = .err .taskNotFoundError (.parsed (.jarr []))
    ∧ TaskService.delete_task 5 (.parsed (.jarr []))
        = .err .taskNotFoundError (.parsed (.jarr [])) :=
  ⟨(C7_uniform_not_found.1 5 (.parsed (.jarr [])) (.parsed (.jarr []))
      rfl).2.1 .done 0,
   (C7_uniform_not_found.1 5 (.parsed (.jarr [])) (.parsed (.jarr []))
      rfl).2.2.1 none none,
   (C7_uniform_not_found.1 5 (.parsed (.jarr [])) (.parsed (.jarr []))
      rfl).2.2.2⟩


/-! C6: next-id assignment.  `specNextId` states the spec's formula
("1 + the max existing id, treating missing ids as 0; 1 when no tasks
exist" — for the empty row list the max defaults to 0, giving 1)
independently of the scanning code, over records whose id fields are
well typed (`rowIdOk`). -/

/-- A record whose id field is absent or an integer (the shape the
spec's formula speaks about). -/
def rowIdOk (row : JValue) : Bool :=
  match row with
  | .jobj fields =>
    match fields.lookup "id" with
    | none => true
    | some (.jint _) => true
    | some _ => false
  | _ => false

/-- The spec's "existing id, missing treated as 0" of a record. -/
def specRowId (row : JValue) : Int :=
  match row with
  | .jobj fields =>
    match fields.lookup "id" with
    | some (.jint n) => n
    | _ => 0
  | _ => 0

/-- The spec's next-id formula. -/
def specNextId (rows : List JValue) : Int :=
  1 + JsonFileTaskRepository.pyMaxD (rows.map specRowId)

/-- On well-typed rows the id generator collects exactly the spec's id
values. -/
theorem idsForMax_ok (rows : List JValue)
    (h : ∀ row ∈ rows, rowIdOk row = true) :
    JsonFileTaskRepository.idsForMax rows = .ok (rows.map specRowId) := by
  induction rows with
  | nil => rfl
  | cons row rest ih =>
    have hrow := h row (List.mem_cons_self row rest)
    have hrest := ih (fun r hr => h r (List.mem_cons_of_mem row hr))
    unfold JsonFileTaskRepository.idsForMax
    cases row <;> simp [rowIdOk] at hrow
    case jobj fields =>
      rcases hl : fields.lookup "id" with _ | v
      · simp [JValue.getField, hl, bind, Except.bind, hrest, specRowId,
          List.map_cons]
      · rw [hl] at hrow
        cases v <;> simp at hrow <;>
          simp [JValue.getField, hl, bind, Except.bind, hrest, specRowId,
            List.map_cons]

/-- Successful `add`, written out (read rows, collect ids, assign
1 + max, append, rewrite). -/
theorem add_eq (task : Task) (s : FileContent) (rows : List JValue)
    (ids : List Int)
    (hread : JsonFileTaskRepository._read_raw s = .ok rows)
    (hids : JsonFileTaskRepository.idsForMax rows = .ok ids) :
    JsonFileTaskRepository.add task s
      = .ok { task with id := some (1 + JsonFileTaskRepository.pyMaxD ids) }
          (JsonFileTaskRepository._write_raw (rows ++
            [_task_to_dict
              { task with
                id := some (1 + JsonFileTaskRepository.pyMaxD ids) }])) := by
  unfold JsonFileTaskRepository.add
  simp [hread, hids, bind, Except.bind, pure, Except.pure]

theorem pyMaxD_append_single (l : List Int) (x : Int) :
    JsonFileTaskRepository.pyMaxD (l ++ [x])
      = if l.isEmpty then x else max (JsonFileTaskRepository.pyMaxD l) x := by
  cases l with
  | nil => rfl
  | cons a t =>
    simp [JsonFileTaskRepository.pyMaxD, List.foldl_append]

theorem pyMaxD_range (k : Nat) :
    JsonFileTaskRepository.pyMaxD
      ((List.range k).map (fun i : Nat => (i : Int) + 1)) = k := by
  induction k with
  | zero => rfl
  | succ n ih =>
    rw [List.range_succ, List.map_append, List.map_singleton,
      pyMaxD_append_single]
    cases n with
    | zero => rfl
    | succ m =>
      rw [if_neg (by simp [List.range_succ]), ih]
      have hle : ((m + 1 : Nat) : Int) ≤ ((m + 1 : Nat) : Int) + 1 := by
        omega
      rw [max_eq_right hle]
      push_cast
      ring

/-- The encoded task of a persisted id is a well-typed row carrying
exactly that id. -/
theorem to_dict_rowIdOk (t : Task) (n : Int) (h : t.id = some n) :
    rowIdOk (_task_to_dict t) = true ∧ specRowId (_task_to_dict t) = n := by
  constructor <;> simp [rowIdOk, specRowId, _task_to_dict, List.lookup, h]

/-- States reachable after `k` creations from an empty store: the file
reads as rows with well-typed ids exactly 1..k, in order. -/
def GoodState (k : Nat) (s : FileContent) : Prop :=
  ∃ rows, JsonFileTaskRepository._read_raw s = .ok rows
    ∧ (∀ row ∈ rows, rowIdOk row = true)
    ∧ rows.map specRowId = (List.range k).map (fun i : Nat => (i : Int) + 1)

/-- One `create_task` from a good state: succeeds, assigns id k+1,
returns status todo, and re-establishes goodness. -/
theorem create_step (ti de : String) (k : Nat) (s : FileContent)
    (hgs : GoodState k s) (hti : pyStrip ti ≠ "") :
    ∃ s', TaskService.create_task ti de 0 0 s
      = .ok ⟨pyStrip ti, pyStrip de, .todo, 0, 0, some ((k : Int) + 1)⟩ s'
      ∧ GoodState (k + 1) s' := by
  obtain ⟨rows, hread, hok, hids⟩ := hgs
  have hifm := idsForMax_ok rows hok
  rw [hids] at hifm
  have hadd := add_eq ⟨pyStrip ti, pyStrip de, .todo, 0, 0, none⟩ s
    rows _ hread hifm
  rw [pyMaxD_range k] at hadd
  have hkk : (1 : Int) + (k : Int) = (k : Int) + 1 := by ring
  rw [hkk] at hadd
  refine ⟨JsonFileTaskRepository._write_raw (rows ++
      [_task_to_dict ⟨pyStrip ti, pyStrip de, .todo, 0, 0,
        some ((k : Int) + 1)⟩]), ?_, ?_⟩
  · unfold TaskService.create_task
    rw [if_neg hti]
    exact hadd
  · refine ⟨rows ++ [_task_to_dict ⟨pyStrip ti, pyStrip de, .todo, 0, 0,
      some ((k : Int) + 1)⟩], rfl, ?_, ?_⟩
    · intro row hrow
      rcases List.mem_append.mp hrow with hmem | hmem
      · exact hok row hmem
      · rw [List.mem_singleton.mp hmem]
        exact (to_dict_rowIdOk _ _ rfl).1
    · rw [List.map_append, hids, List.map_singleton,
        (to_dict_rowIdOk _ ((k : Int) + 1) rfl).2, List.range_succ,
        List.map_append, List.map_singleton]

/-- Folding `create_task` over a list of inputs, collecting the created
tasks (times fixed at 0; ids are time-independent). -/
def createSeq (inputs : List (String × String)) : M (List Task) := fun s =>
  match inputs with
  | [] => .ok [] s
  | (ti, de) :: rest =>
    match TaskService.create_task ti de 0 0 s with
    | .err e s1 => .err e s1
    | .ok t s1 =>
      match createSeq rest s1 with
      | .err e s2 => .err e s2
      | .ok ts s2 => .ok (t :: ts) s2

/-- Sequences of creations from a good state assign consecutive ids. -/
theorem createSeq_good :
    ∀ (inputs : List (String × String)) (k : Nat) (s : FileContent),
      GoodState k s → (∀ p ∈ inputs, pyStrip p.1 ≠ "") →
      ∃ ts s', createSeq inputs s = .ok ts s'
        ∧ ts.map Task.id
            = (List.range inputs.length).map
                (fun i : Nat => some ((k : Int) + i + 1))
        ∧ (∀ t ∈ ts, t.status = .todo)
        ∧ GoodState (k + inputs.length) s' := by
  intro inputs
  induction inputs with
  | nil =>
    intro k s hg _
    exact ⟨[], s, rfl, by simp, by simp, by simpa using hg⟩
  | cons p rest ih =>
    intro k s hg hne
    obtain ⟨ti, de⟩ := p
    obtain ⟨s1, hcr, hg1⟩ :=
      create_step ti de k s hg (hne _ (List.mem_cons_self _ _))
    obtain ⟨ts, s2, hseq, hmap, hsts, hg2⟩ :=
      ih (k + 1) s1 hg1 (fun q hq => hne q (List.mem_cons_of_mem _ hq))
    refine ⟨⟨pyStrip ti, pyStrip de, .todo, 0, 0, some ((k : Int) + 1)⟩ :: ts,
      s2, ?_, ?_, ?_, ?_⟩
    · unfold createSeq
      simp only [hcr, hseq]
    · rw [List.length_cons, List.range_succ_eq_map, List.map_cons,
        List.map_cons, List.map_map]
      simp only [List.cons.injEq]
      constructor
      · norm_num
      · rw [hmap]
        have hfun : ((fun i : Nat => some ((k : Int) + i + 1)) ∘ Nat.succ)
            = fun i : Nat => some (((k + 1 : Nat) : Int) + i + 1) := by
          funext i
          simp only [Function.comp_apply]
          congr 1
          push_cast
          ring
        rw [hfun]
    · intro t' ht'
      rcases List.mem_cons.mp ht' with rfl | hmem
      · rfl
      · exact hsts t' hmem
    · have hlen : k + (rest.length + 1) = k + 1 + rest.length := by omega
      rw [List.length_cons, hlen]
      exact hg2

/-- C6: on a stored collection of records with well-typed ids, `add`
assigns exactly the spec's next id — 1 + the max existing id (missing
ids counting as 0), hence 1 for an empty collection; consequently every
sequence of create_task calls with non-blank titles succeeds from an
empty store with strictly increasing ids 1, 2, ... and each returned
task has status todo. -/
theorem C6_next_id_assignment :
    (∀ (task : Task) (rows : List JValue),
      (∀ row ∈ rows, rowIdOk row = true) →
      ∃ s', JsonFileTaskRepository.add task (.parsed (.jarr rows))
        = .ok { task with id := some (specNextId rows) } s')
    ∧ (∀ inputs : List (String × String),
      (∀ p ∈ inputs, pyStrip p.1 ≠ "") →
      ∃ ts s', createSeq inputs .absent = .ok ts s'
        ∧ ts.map Task.id
            = (List.range inputs.length).map
                (fun i : Nat => some ((i : Int) + 1))
        ∧ ∀ t ∈ ts, t.status = .todo) := by
  constructor
  · intro task rows hok
    exact ⟨_, add_eq task (.parsed (.jarr rows)) rows _ rfl
      (idsForMax_ok rows hok)⟩
  · intro inputs hne
    have hg0 : GoodState 0 .absent := ⟨[], rfl, by simp, by simp⟩
    obtain ⟨ts, s', hseq, hmap, hsts, _⟩ :=
      createSeq_good inputs 0 .absent hg0 hne
    refine ⟨ts, s', hseq, ?_, hsts⟩
    rw [hmap]
    have hfun : (fun i : Nat => some (((0 : Nat) : Int) + i + 1))
        = fun i : Nat => some ((i : Int) + 1) := by
      funext i
      norm_num
    rw [hfun]

/-- C6 witness: a store with a missing-id record and an id-4 record
gives next id 5; two creations from an empty store give ids 1 and 2 with
status todo. -/
theorem C6_next_id_assignment_witness :
    (∃ s', JsonFileTaskRepository.add ⟨"z", "", .todo, 0, 0, none⟩
        (.parsed (.jarr [.jobj [("title", .jstr "x")],
                         .jobj [("id", .jint 4), ("title", .jstr "y")]]))
      = .ok ⟨"z", "", .todo, 0, 0, some 5⟩ s')
    ∧ (∃ ts s', createSeq [("a", ""), ("b", "")] .absent = .ok ts s'
        ∧ ts.map Task.id = [some 1, some 2]
        ∧ ∀ t ∈ ts, t.status = .todo) :=
  ⟨C6_next_id_assignment.1 ⟨"z", "", .todo, 0, 0, none⟩
      [.jobj [("title", .jstr "x")],
       .jobj [("id", .jint 4), ("title", .jstr "y")]] (by decide),
   C6_next_id_assignment.2 [("a", ""), ("b", "")] (by decide)⟩

end TaskTracker
